import Mathlib

/-!
Verification of the object/property representation layer of jerry-core
(src/jerry-core/ecma/base/ecma-helpers.c) via a shallow embedding.

Modelling conventions:
  - Heap-relative compressed pointers are modelled as natural numbers; the
    null sentinel ECMA_NULL_POINTER / MEM_CP_NULL is the number 0, or an
    Option when the source variable is an ordinary nullable C pointer.
  - Machine integers are Nat with explicit truncation (percent 2 pow w) at the
    points where the C code performs a narrowing cast.
  - External collaborators (string interning, value subsystem, heap
    allocator) are not in src; their effects are recorded as an explicit list
    of events, and constants defined only in headers outside src are
    modelled from the spec (each such definition carries a doc comment
    starting with Modelled from the spec).
  - JERRY_ASSERT preconditions are modelled as Option-valued guards: a
    violated assertion is the result none (a programming error), never a
    recoverable value.
-/

/-! ### Object descriptor word: constants

The numeric values of the following constants live in ecma-globals.h, which
is not part of src.  They are modelled from the spec (disjoint discriminant
ranges, environment subtypes at or above a fixed threshold) and chosen to
satisfy every JERRY_STATIC_ASSERT in ecma-helpers.c, proved below. -/

/-- Modelled from the spec: mask of the object/environment type discriminant
field inside the packed type_flags_refs word (ecma-globals.h is not in src). -/
def ECMA_OBJECT_TYPE_MASK : Nat := 15

/-- Modelled from the spec: largest ordinary-object type discriminant. -/
def ECMA_OBJECT_TYPE_MAX : Nat := 7

/-- Modelled from the spec: the built-in-or-lexical-environment flag, the bit
immediately above the type field. -/
def ECMA_OBJECT_FLAG_BUILT_IN_OR_LEXICAL_ENV : Nat := 16

/-- Modelled from the spec: the gc-visited flag, the bit above the built-in flag. -/
def ECMA_OBJECT_FLAG_GC_VISITED : Nat := 32

/-- Modelled from the spec: the extensible flag, the bit above the gc flag. -/
def ECMA_OBJECT_FLAG_EXTENSIBLE : Nat := 64

/-- Modelled from the spec: the unit of the reference-count field packed above the flags. -/
def ECMA_OBJECT_REF_ONE : Nat := 128

/-- Modelled from the spec: the maximum packed reference-count value. -/
def ECMA_OBJECT_MAX_REF : Nat := 65535 - (ECMA_OBJECT_REF_ONE - 1)

/-- Modelled from the spec: environment subtypes are always numerically at or
above a fixed threshold inside the type field. -/
def ECMA_LEXICAL_ENVIRONMENT_TYPE_START : Nat := 13

/-- Modelled from the spec: declarative lexical environment subtype. -/
def ECMA_LEXICAL_ENVIRONMENT_DECLARATIVE : Nat := 13

/-- Modelled from the spec: object-bound lexical environment subtype. -/
def ECMA_LEXICAL_ENVIRONMENT_OBJECT_BOUND : Nat := 14

/-- Modelled from the spec: this-and-object-bound lexical environment subtype. -/
def ECMA_LEXICAL_ENVIRONMENT_THIS_OBJECT_BOUND : Nat := 15

/-- Modelled from the spec: largest lexical environment subtype. -/
def ECMA_LEXICAL_ENVIRONMENT_TYPE_MAX : Nat := 15

/-! ### Object / environment descriptor (ecma_object_t) -/

/-- The object/environment descriptor: the packed type/flag/refcount word,
the prototype-or-outer reference slot and the property-list-or-bound-object
slot (ecma-helpers.c uses exactly these three fields). -/
structure ecma_object_t where
  type_flags_refs : Nat
  prototype_or_outer_reference_cp : Option Nat
  property_list_or_bound_object_cp : Option Nat
deriving DecidableEq

/-- Modelled from the spec: ecma_init_gc_info (ecma-gc.c, not in src) sets the
packed reference count of a freshly constructed descriptor to one. -/
def ecma_init_gc_info (o : ecma_object_t) : ecma_object_t :=
  { o with type_flags_refs := o.type_flags_refs + ECMA_OBJECT_REF_ONE }

/-- ecma_create_object (ecma-helpers.c lines 84-108): sets the type
discriminant, optionally the extensible flag, reference count one, empty
property list and the given prototype reference. -/
def ecma_create_object (prototype_object : Option Nat) (is_extensible : Bool)
    (t : Nat) : ecma_object_t :=
  let type_flags := if is_extensible then t ||| ECMA_OBJECT_FLAG_EXTENSIBLE else t
  ecma_init_gc_info
    { type_flags_refs := type_flags
      prototype_or_outer_reference_cp := prototype_object
      property_list_or_bound_object_cp := none }

/-- ecma_is_lexical_environment (lines 185-193): a single range comparison on
the packed word, masked to the built-in flag together with the type field. -/
def ecma_is_lexical_environment (o : ecma_object_t) : Bool :=
  decide ((ECMA_OBJECT_FLAG_BUILT_IN_OR_LEXICAL_ENV ||| ECMA_LEXICAL_ENVIRONMENT_TYPE_START) ≤
    (o.type_flags_refs &&& (ECMA_OBJECT_FLAG_BUILT_IN_OR_LEXICAL_ENV ||| ECMA_OBJECT_TYPE_MASK)))

/-- ecma_create_decl_lex_env (lines 120-136). -/
def ecma_create_decl_lex_env (outer_lexical_environment : Option Nat) : ecma_object_t :=
  ecma_init_gc_info
    { type_flags_refs :=
        ECMA_OBJECT_FLAG_BUILT_IN_OR_LEXICAL_ENV ||| ECMA_LEXICAL_ENVIRONMENT_DECLARATIVE
      prototype_or_outer_reference_cp := outer_lexical_environment
      property_list_or_bound_object_cp := none }

/-- ecma_create_object_lex_env (lines 148-180).  The JERRY_ASSERT that the
binding object is non-null and not itself a lexical environment is a guard:
violating it yields none. -/
def ecma_create_object_lex_env (outer_lexical_environment : Option Nat)
    (binding_obj : ecma_object_t) (binding_obj_ref : Nat)
    (provide_this : Bool) : Option ecma_object_t :=
  if ecma_is_lexical_environment binding_obj then none
  else
    let t := if provide_this then
        ECMA_OBJECT_FLAG_BUILT_IN_OR_LEXICAL_ENV ||| ECMA_LEXICAL_ENVIRONMENT_THIS_OBJECT_BOUND
      else
        ECMA_OBJECT_FLAG_BUILT_IN_OR_LEXICAL_ENV ||| ECMA_LEXICAL_ENVIRONMENT_OBJECT_BOUND
    some (ecma_init_gc_info
      { type_flags_refs := t
        prototype_or_outer_reference_cp := outer_lexical_environment
        property_list_or_bound_object_cp := some binding_obj_ref })

/-- ecma_set_object_is_builtin (lines 282-290): asserts that the built-in
flag is not yet set and the type field is below the environment threshold,
then sets the built-in flag on the packed word. -/
def ecma_set_object_is_builtin (o : ecma_object_t) : Option ecma_object_t :=
  if o.type_flags_refs &&& ECMA_OBJECT_FLAG_BUILT_IN_OR_LEXICAL_ENV ≠ 0 then none
  else if ECMA_LEXICAL_ENVIRONMENT_TYPE_START ≤ o.type_flags_refs &&& ECMA_OBJECT_TYPE_MASK then
    none
  else
    some { o with type_flags_refs :=
      o.type_flags_refs ||| ECMA_OBJECT_FLAG_BUILT_IN_OR_LEXICAL_ENV }

/-- ecma_get_object_extensible (lines 198-205), for ordinary objects. -/
def ecma_get_object_extensible (o : ecma_object_t) : Option Bool :=
  if ecma_is_lexical_environment o then none
  else some (decide (o.type_flags_refs &&& ECMA_OBJECT_FLAG_EXTENSIBLE ≠ 0))

/-! ### External actions

Effects on collaborators outside src (string refcounts, value subsystem,
collections, the heap allocator) are recorded as events. -/

/-- One externally visible action performed by the code under verification. -/
inductive Event where
  | bcDeref (a : Nat)
  | bcZero (a : Nat)
  | bcFree (a : Nat) (size : Nat)
  | refString (a : Nat)
  | derefString (a : Nat)
  | freeCollection (a : Nat) (do_deref : Bool)
  | deallocNumber (a : Nat)
  | freeExternalPointer
  | freeValueIfNotObject (v : Nat)
  | deallocProperty
deriving DecidableEq

/-! ### Bytecode descriptors (ecma_compiled_code_t) -/

/-- Modelled from the spec: MEM_ALIGNMENT_LOG (mem heap header, not in src),
the shift applied to the recorded block size when freeing. -/
def MEM_ALIGNMENT_LOG : Nat := 3

/-- UINT16_MAX, the saturation bound of the 16-bit bytecode reference count. -/
def UINT16_MAX : Nat := 65535

/-- A compiled-code block: 16-bit reference count, the CBC_CODE_FLAGS_FUNCTION
bit of status_flags, the bytecode-reference region of the literal table
(the entries with indices from const_literal_end to literal_end, each a
non-null compressed pointer to another block), the regexp pattern string
reference (non-function payloads) and the recorded block size.  The
cbc_uint8_arguments_t versus cbc_uint16_arguments_t distinction only moves
the literal table inside the block, so the region is carried directly. -/
structure ecma_compiled_code_t where
  refs : Nat
  isFunction : Bool
  bytecodeRegion : List Nat
  pattern_cp : Nat
  size : Nat
deriving DecidableEq

/-- The heap of compiled-code blocks, indexed by compressed pointer. -/
abbrev BcHeap := Nat → Option ecma_compiled_code_t

/-- Pointwise update of a compiled-code heap. -/
def bcUpdate (h : BcHeap) (a : Nat) (v : Option ecma_compiled_code_t) : BcHeap :=
  fun x => if x = a then v else h x

/-- Fatal runtime termination codes (jrt, not in src; only the code used here). -/
inductive JerryFatalCode where
  | ERR_REF_COUNT_LIMIT
deriving DecidableEq

/-- ecma_bytecode_ref (lines 1269-1279): aborts fatally when the reference
count has reached UINT16_MAX, otherwise increments the 16-bit counter. -/
def ecma_bytecode_ref (bytecode : ecma_compiled_code_t) :
    Except JerryFatalCode ecma_compiled_code_t :=
  if UINT16_MAX ≤ bytecode.refs then Except.error JerryFatalCode.ERR_REF_COUNT_LIMIT
  else Except.ok { bytecode with refs := (bytecode.refs + 1) % 65536 }

mutual

/-- ecma_bytecode_deref (lines 1285-1347), fueled to make the C recursion a
total function: fuel 0 is exhaustion (none).  Asserts a positive reference
count, decrements it, and on reaching zero either walks the
bytecode-reference region of a compiled function (recursively dereferencing
every entry that is not a self-reference) or releases the regexp pattern
string, then frees the whole block using its recorded size. -/
def ecma_bytecode_deref (fuel : Nat) (h : BcHeap) (a : Nat) :
    Option (BcHeap × List Event) :=
  match fuel with
  | 0 => none
  | Nat.succ f =>
    match h a with
    | none => none
    | some bc =>
      if bc.refs = 0 then none
      else
        let h1 := bcUpdate h a (some { bc with refs := bc.refs - 1 })
        if bc.refs - 1 ≠ 0 then some (h1, [Event.bcDeref a])
        else
          let inner :=
            if bc.isFunction then derefRegion f a h1 bc.bytecodeRegion
            else some (h1, [Event.derefString bc.pattern_cp])
          match inner with
          | none => none
          | some (h2, evs) =>
            some (bcUpdate h2 a none,
              Event.bcDeref a :: Event.bcZero a ::
                (evs ++ [Event.bcFree a (bc.size <<< MEM_ALIGNMENT_LOG)]))
termination_by (fuel, 0)

/-- The literal-table loop of ecma_bytecode_deref (lines 1323-1334): each
entry that is not a self-reference is recursively dereferenced. -/
def derefRegion (fuel : Nat) (self : Nat) (h : BcHeap) (l : List Nat) :
    Option (BcHeap × List Event) :=
  match l with
  | [] => some (h, [])
  | c :: cs =>
    if c = self then derefRegion fuel self h cs
    else
      match ecma_bytecode_deref fuel h c with
      | none => none
      | some (h1, evs1) =>
        match derefRegion fuel self h1 cs with
        | none => none
        | some (h2, evs2) => some (h2, evs1 ++ evs2)
termination_by (fuel, l.length + 1)

end

/-! ### Internal property kinds -/

/-- ecma_internal_property_id_t (ecma-globals.h, not in src): the kinds named
by the switch of ecma_free_internal_property (lines 716-811).  The pseudo
kind ECMA_INTERNAL_PROPERTY_COUNT is not a real kind and is not a
constructor. -/
inductive InternalPropertyId where
  | numberIndexedArrayValues
  | stringIndexedArrayValues
  | primitiveStringValue
  | primitiveNumberValue
  | nativeCode
  | nativeHandle
  | freeCallback
  | primitiveBooleanValue
  | scope
  | parametersMap
  | prototype
  | extensible
  | classKind
  | builtInId
  | builtInRoutineDesc
  | extensionId
  | nonInstantiatedBuiltInMask0
  | nonInstantiatedBuiltInMask32
  | boundFunctionTargetFunction
  | boundFunctionBoundThis
  | boundFunctionBoundArgs
  | codeBytecode
  | regexpBytecode
deriving DecidableEq

/-- ecma_free_internal_property (lines 708-814): releases the kind-specific
payload, then deallocates the record.  A compressed pointer read with
ECMA_GET_NON_NULL_POINTER on the null sentinel 0 is a programming error
(none); the regexp-bytecode kind reads with ECMA_GET_POINTER and explicitly
skips a null reference.  Bytecode-valued kinds call ecma_bytecode_deref on
the bytecode heap. -/
def ecma_free_internal_property (property_id : InternalPropertyId)
    (property_value : Nat) (fuel : Nat) (h : BcHeap) : Option (BcHeap × List Event) :=
  match property_id with
  | .numberIndexedArrayValues | .stringIndexedArrayValues =>
    if property_value = 0 then none
    else some (h, [Event.freeCollection property_value true, Event.deallocProperty])
  | .primitiveStringValue =>
    if property_value = 0 then none
    else some (h, [Event.derefString property_value, Event.deallocProperty])
  | .primitiveNumberValue =>
    if property_value = 0 then none
    else some (h, [Event.deallocNumber property_value, Event.deallocProperty])
  | .nativeCode | .nativeHandle | .freeCallback =>
    some (h, [Event.freeExternalPointer, Event.deallocProperty])
  | .primitiveBooleanValue | .scope | .parametersMap | .prototype | .extensible
  | .classKind | .builtInId | .builtInRoutineDesc | .extensionId
  | .nonInstantiatedBuiltInMask0 | .nonInstantiatedBuiltInMask32
  | .boundFunctionTargetFunction =>
    some (h, [Event.deallocProperty])
  | .boundFunctionBoundThis =>
    some (h, [Event.freeValueIfNotObject property_value, Event.deallocProperty])
  | .boundFunctionBoundArgs =>
    if property_value ≠ 0 then
      some (h, [Event.freeCollection property_value false, Event.deallocProperty])
    else some (h, [Event.deallocProperty])
  | .codeBytecode =>
    if property_value = 0 then none
    else
      match ecma_bytecode_deref fuel h property_value with
      | none => none
      | some (h2, evs) => some (h2, evs ++ [Event.deallocProperty])
  | .regexpBytecode =>
    if property_value = 0 then some (h, [Event.deallocProperty])
    else
      match ecma_bytecode_deref fuel h property_value with
      | none => none
      | some (h2, evs) => some (h2, evs ++ [Event.deallocProperty])

/-! ### Property records (ecma_property_t) -/

/-- Modelled from the spec: the flag byte of a property record
(ecma-globals.h, not in src) carries the kind bits ECMA_PROPERTY_FLAG_NAMEDDATA,
ECMA_PROPERTY_FLAG_NAMEDACCESSOR and ECMA_PROPERTY_FLAG_INTERNAL together
with the attribute bits; the packed byte is modelled as a record of its
individual bits. -/
structure PropFlags where
  nameddata : Bool
  namedaccessor : Bool
  isInternal : Bool
  configurable : Bool
  enumerable : Bool
  writable : Bool
  lcached : Bool
deriving DecidableEq

/-- The all-clear flag byte. -/
def emptyPropFlags : PropFlags :=
  { nameddata := false, namedaccessor := false, isInternal := false,
    configurable := false, enumerable := false, writable := false, lcached := false }

/-- A property record.  The C record packs a union header byte h (value high
bits for named data, internal kind tag for internal properties) and a union
v (name and value low bits, name and getter/setter pair pointer, or internal
payload word); the union members are modelled as separate fields, each kind
reading and writing only its own.  The next_property_p chain is carried by
the owning list of addresses (EcmaState.property_list) instead of an
intrusive pointer. -/
structure ecma_property_t where
  flags : PropFlags
  named_data_property_value_high : Nat
  internal_property_type : InternalPropertyId
  name_p : Nat
  value_low : Nat
  getter_setter_pair_cp : Nat
  internal_value : Nat
deriving DecidableEq

/-- Modelled from the spec: ecma_alloc_property returns an uninitialized
record; the model fixes the junk contents. -/
def ecma_alloc_property : ecma_property_t :=
  { flags := emptyPropFlags, named_data_property_value_high := 0,
    internal_property_type := InternalPropertyId.prototype, name_p := 0,
    value_low := 0, getter_setter_pair_cp := 0, internal_value := 0 }

/-- Modelled from the spec: ecma_make_simple_value (ECMA_SIMPLE_VALUE_UNDEFINED),
the undefined sentinel value word (value subsystem, not in src). -/
def ECMA_SIMPLE_VALUE_UNDEFINED_WORD : Nat := 0

/-- Modelled from the spec: interned strings are compared by identity
(ecma_compare_ecma_strings, string subsystem, not in src). -/
def ecma_compare_ecma_strings (a b : Nat) : Bool := a == b

/-- The 24-bit value word of a named data property, reassembled from the
8-bit high field and the 16-bit low field (lines 909-916). -/
def namedDataValueWord (p : ecma_property_t) : Nat :=
  (p.named_data_property_value_high <<< 16) ||| p.value_low

/-- ecma_get_named_data_property_value (lines 909-916), with the
JERRY_ASSERT on the kind flag as a guard. -/
def ecma_get_named_data_property_value (p : ecma_property_t) : Option Nat :=
  if p.flags.nameddata then some (namedDataValueWord p) else none

/-- ecma_set_named_data_property_value (lines 921-929): the value is split
into an 8-bit high field (a uint8 cast of value shifted right by 16) and a
16-bit low field (a uint16 cast of value). -/
def ecma_set_named_data_property_value (p : ecma_property_t) (value : Nat) :
    Option ecma_property_t :=
  if p.flags.nameddata then
    some { p with named_data_property_value_high := (value >>> 16) % 256,
                  value_low := value % 65536 }
  else none

/-! ### The state of one object descriptor and its collaborators

The claims below each quantify over a single descriptor, so the state is the
property storage reachable from one descriptor: the property records (by
address), the getter/setter pair records (by address), the property list of
the descriptor as the list of record addresses spelled by the
next_property_p chain, the lookup-cache rows for this descriptor, the
compiled-code heap and the event trace. -/

/-- Mutable state around one object descriptor. -/
structure EcmaState where
  props : Nat → Option ecma_property_t
  pairs : Nat → Option (Option Nat × Option Nat)
  property_list : List Nat
  lcache : Nat → Option (Option Nat)
  bcHeap : BcHeap
  events : List Event

/-- Pointwise update of an address-indexed map. -/
def mapUpdate {α : Type} (f : Nat → Option α) (a : Nat) (v : Option α) :
    Nat → Option α :=
  fun x => if x = a then v else f x

/-- Modelled from the spec: ecma_lcache_lookup for this descriptor.  A row
present for the name is a trusted hit (some r, where r is the memoized
record or none for a memoized miss); an absent row is a cache miss. -/
def ecma_lcache_lookup (st : EcmaState) (name_p : Nat) : Option (Option Nat) :=
  st.lcache name_p

/-- Modelled from the spec: ecma_lcache_insert memoizes the scan result for
a name, including negative results. -/
def ecma_lcache_insert (st : EcmaState) (name_p : Nat) (r : Option Nat) : EcmaState :=
  { st with lcache := fun m => if m = name_p then some r else st.lcache m }

/-- Whether an lcache row (for name m, memoizing e) matches an invalidation
request carrying an optional name and an optional record. -/
def lcacheRowMatches (m : Nat) (e : Option Nat) (name_opt : Option Nat)
    (prop_opt : Option Nat) : Bool :=
  (match name_opt with
   | some n => decide (m = n)
   | none => true) &&
  (match prop_opt with
   | some p => decide (e = some p)
   | none => true)

/-- Modelled from the spec: ecma_lcache_invalidate removes every row of this
descriptor matching the given name (if any) and the given record (if any). -/
def ecma_lcache_invalidate (st : EcmaState) (name_opt : Option Nat)
    (prop_opt : Option Nat) : EcmaState :=
  { st with lcache := fun m =>
      match st.lcache m with
      | none => none
      | some e => if lcacheRowMatches m e name_opt prop_opt then none else some e }

/-- The linear scan of ecma_find_named_property (lines 582-609): walks the
property list, compares names only on named data and named accessor records,
skips internal records, and stops at the first match.  A dangling address in
the list is a programming error (none); otherwise some r where r is the
first matching record address or none. -/
def findNamedScan (st : EcmaState) (name_p : Nat) : List Nat → Option (Option Nat)
  | [] => some none
  | a :: rest =>
    match st.props a with
    | none => none
    | some p =>
      if p.flags.nameddata then
        if ecma_compare_ecma_strings name_p p.name_p then some (some a)
        else findNamedScan st name_p rest
      else if p.flags.namedaccessor then
        if ecma_compare_ecma_strings name_p p.name_p then some (some a)
        else findNamedScan st name_p rest
      else findNamedScan st name_p rest

/-- ecma_find_named_property (lines 568-614): a trusted cache hit returns
immediately; on a miss the list is scanned and the result (found or absent)
is reported back to the cache.  The first component is none exactly when the
scan hit a dangling record (a programming error). -/
def ecma_find_named_property (st : EcmaState) (name_p : Nat) :
    Option (Option Nat) × EcmaState :=
  match ecma_lcache_lookup st name_p with
  | some r => (some r, st)
  | none =>
    match findNamedScan st name_p st.property_list with
    | none => (none, st)
    | some r => (some r, ecma_lcache_insert st name_p r)

/-- The flag byte built by ecma_create_named_data_property (lines 476-491). -/
def buildNamedDataFlags (is_writable is_enumerable is_configurable : Bool) : PropFlags :=
  let flags0 := { emptyPropFlags with nameddata := true }
  let flags1 := if is_configurable then { flags0 with configurable := true } else flags0
  let flags2 := if is_enumerable then { flags1 with enumerable := true } else flags1
  if is_writable then { flags2 with writable := true } else flags2

/-- The flag byte built by ecma_create_named_accessor_property (lines 528-539). -/
def buildNamedAccessorFlags (is_enumerable is_configurable : Bool) : PropFlags :=
  let flags0 := { emptyPropFlags with namedaccessor := true }
  let flags1 := if is_configurable then { flags0 with configurable := true } else flags0
  if is_enumerable then { flags1 with enumerable := true } else flags1

/-- The record built by ecma_create_named_data_property before linking: kind
flag, attribute bits, name reference and the undefined sentinel value. -/
def ecma_create_named_data_property_record (name_p : Nat)
    (is_writable is_enumerable is_configurable : Bool) : ecma_property_t :=
  { ecma_alloc_property with
    flags := buildNamedDataFlags is_writable is_enumerable is_configurable,
    name_p := name_p,
    named_data_property_value_high := (ECMA_SIMPLE_VALUE_UNDEFINED_WORD >>> 16) % 256,
    value_low := ECMA_SIMPLE_VALUE_UNDEFINED_WORD % 65536 }

/-- ecma_create_named_data_property (lines 463-506): asserts that no named
property with this name exists (via ecma_find_named_property), takes a new
reference to the name, builds the flag byte, initializes the value to the
undefined sentinel, prepends the record to the property list and invalidates
the cache row of the name.  The fresh record address is supplied by the
allocator. -/
def ecma_create_named_data_property (st : EcmaState) (name_p : Nat)
    (is_writable is_enumerable is_configurable : Bool) (fresh : Nat) :
    Option (Nat × EcmaState) :=
  match ecma_find_named_property st name_p with
  | (some none, st0) =>
    let st1 := { st0 with events := st0.events ++ [Event.refString name_p] }
    let p0 := { ecma_alloc_property with
      flags := buildNamedDataFlags is_writable is_enumerable is_configurable,
      name_p := name_p }
    match ecma_set_named_data_property_value p0 ECMA_SIMPLE_VALUE_UNDEFINED_WORD with
    | none => none
    | some p1 =>
      let st2 : EcmaState :=
        { st1 with
          props := mapUpdate st1.props fresh (some p1),
          property_list := fresh :: st1.property_list }
      some (fresh, ecma_lcache_invalidate st2 (some name_p) none)
  | _ => none

/-- ecma_assert_object_contains_the_property (lines 878-899): the record
address is reachable from the descriptor property list. -/
def ecma_assert_object_contains_the_property (st : EcmaState) (a : Nat) : Bool :=
  st.property_list.contains a

/-- ecma_set_named_accessor_property_getter (lines 999-1012): asserts the
record is a named accessor reachable from the descriptor, then stores the
getter through the shared getter/setter pair record. -/
def ecma_set_named_accessor_property_getter (st : EcmaState) (a : Nat)
    (getter : Option Nat) : Option EcmaState :=
  match st.props a with
  | none => none
  | some p =>
    if p.flags.namedaccessor = false then none
    else if ecma_assert_object_contains_the_property st a = false then none
    else
      match st.pairs p.getter_setter_pair_cp with
      | none => none
      | some gs =>
        some
          { st with
            pairs := mapUpdate st.pairs p.getter_setter_pair_cp (some (getter, gs.2)) }

/-- ecma_set_named_accessor_property_setter (lines 1017-1030). -/
def ecma_set_named_accessor_property_setter (st : EcmaState) (a : Nat)
    (setter : Option Nat) : Option EcmaState :=
  match st.props a with
  | none => none
  | some p =>
    if p.flags.namedaccessor = false then none
    else if ecma_assert_object_contains_the_property st a = false then none
    else
      match st.pairs p.getter_setter_pair_cp with
      | none => none
      | some gs =>
        some
          { st with
            pairs := mapUpdate st.pairs p.getter_setter_pair_cp (some (gs.1, setter)) }

/-- ecma_create_named_accessor_property (lines 513-560): asserts uniqueness
of the name, allocates the record and the shared getter/setter pair, links
the record into the property list, and only then assigns the getter and the
setter (the setters assert reachability), finally invalidating the cache
row of the name. -/
def ecma_create_named_accessor_property (st : EcmaState) (name_p : Nat)
    (get_p set_p : Option Nat) (is_enumerable is_configurable : Bool)
    (freshProp freshPair : Nat) : Option (Nat × EcmaState) :=
  match ecma_find_named_property st name_p with
  | (some none, st0) =>
    let st1 := { st0 with events := st0.events ++ [Event.refString name_p] }
    let p0 : ecma_property_t :=
      { ecma_alloc_property with
        flags := buildNamedAccessorFlags is_enumerable is_configurable,
        name_p := name_p,
        getter_setter_pair_cp := freshPair }
    let st2 : EcmaState :=
      { st1 with
        props := mapUpdate st1.props freshProp (some p0),
        pairs := mapUpdate st1.pairs freshPair (some (none, none)),
        property_list := freshProp :: st1.property_list }
    match ecma_set_named_accessor_property_getter st2 freshProp get_p with
    | none => none
    | some st3 =>
      match ecma_set_named_accessor_property_setter st3 freshProp set_p with
      | none => none
      | some st4 => some (freshProp, ecma_lcache_invalidate st4 (some name_p) none)
  | _ => none

/-- ecma_free_named_data_property (lines 665-681): invalidates every cache
row memoizing this record, releases the name reference, releases the stored
value unless it is an object reference, and deallocates the record. -/
def ecma_free_named_data_property (st : EcmaState) (a : Nat)
    (p : ecma_property_t) : EcmaState :=
  let st1 := ecma_lcache_invalidate st none (some a)
  { st1 with
    events := st1.events ++
      [Event.derefString p.name_p, Event.freeValueIfNotObject (namedDataValueWord p),
       Event.deallocProperty],
    props := mapUpdate st1.props a none }

/-- ecma_free_named_accessor_property (lines 686-703): invalidates every
cache row memoizing this record, releases the name reference, deallocates
the shared getter/setter pair (a dangling pair is a programming error) and
the record. -/
def ecma_free_named_accessor_property (st : EcmaState) (a : Nat)
    (p : ecma_property_t) : Option EcmaState :=
  let st1 := ecma_lcache_invalidate st none (some a)
  match st1.pairs p.getter_setter_pair_cp with
  | none => none
  | some _ =>
    some
      { st1 with
        events := st1.events ++ [Event.derefString p.name_p, Event.deallocProperty],
        pairs := mapUpdate st1.pairs p.getter_setter_pair_cp none,
        props := mapUpdate st1.props a none }

/-- ecma_free_property (lines 819-837): dispatch on the kind flags. -/
def ecma_free_property (st : EcmaState) (a : Nat) (fuel : Nat) : Option EcmaState :=
  match st.props a with
  | none => none
  | some p =>
    if p.flags.nameddata then some (ecma_free_named_data_property st a p)
    else if p.flags.namedaccessor then ecma_free_named_accessor_property st a p
    else
      match ecma_free_internal_property p.internal_property_type p.internal_value
          fuel st.bcHeap with
      | none => none
      | some (h2, evs) =>
        some
          { st with
            bcHeap := h2,
            events := st.events ++ evs,
            props := mapUpdate st.props a none }

/-- The unlink walk of ecma_delete_property (lines 848-870): remove the
first occurrence of the record address from the property list; absence is
JERRY_UNREACHABLE. -/
def removeFirst : List Nat → Nat → Option (List Nat)
  | [], _ => none
  | x :: xs, a => if x = a then some xs else (removeFirst xs a).map (fun l => x :: l)

/-- ecma_delete_property (lines 844-873): frees the record (releasing the
kind-specific payload and invalidating the cache) and unlinks it from the
property list; a record not owned by the descriptor is JERRY_UNREACHABLE. -/
def ecma_delete_property (st : EcmaState) (a : Nat) (fuel : Nat) : Option EcmaState :=
  match removeFirst st.property_list a with
  | none => none
  | some l2 =>
    match ecma_free_property st a fuel with
    | none => none
    | some st1 => some { st1 with property_list := l2 }

/-- The scan loop of ecma_find_internal_property (lines 424-433): the first
record carrying the internal flag and the requested kind tag. -/
def findInternalScan (st : EcmaState) (property_id : InternalPropertyId) :
    List Nat → Option (Option Nat)
  | [] => some none
  | a :: rest =>
    match st.props a with
    | none => none
    | some p =>
      if p.flags.isInternal && decide (p.internal_property_type = property_id) then
        some (some a)
      else findInternalScan st property_id rest

/-- ecma_find_internal_property (lines 415-436): asserts that the requested
kind is neither the prototype kind nor the extensible kind (both live in the
descriptor itself, never in the property list), then scans the list. -/
def ecma_find_internal_property (st : EcmaState) (property_id : InternalPropertyId) :
    Option (Option Nat) :=
  if property_id = InternalPropertyId.prototype then none
  else if property_id = InternalPropertyId.extensible then none
  else findInternalScan st property_id st.property_list

/-- ecma_get_internal_property (lines 446-455): find plus the assertion that
the property exists. -/
def ecma_get_internal_property (st : EcmaState) (property_id : InternalPropertyId) :
    Option Nat :=
  match ecma_find_internal_property st property_id with
  | some (some a) => some a
  | _ => none

/-- ecma_create_internal_property (lines 387-407): asserts that no internal
property of this kind exists, then allocates a record with the internal
flag, the kind tag and a null payload, prepended to the property list. -/
def ecma_create_internal_property (st : EcmaState) (property_id : InternalPropertyId)
    (fresh : Nat) : Option (Nat × EcmaState) :=
  match ecma_find_internal_property st property_id with
  | some none =>
    let p0 : ecma_property_t :=
      { ecma_alloc_property with
        flags := { emptyPropFlags with isInternal := true },
        internal_property_type := property_id,
        internal_value := 0 }
    some (fresh,
      { st with
        props := mapUpdate st.props fresh (some p0),
        property_list := fresh :: st.property_list })
  | _ => none

/-! ### The property descriptor bridge (ecma_property_descriptor_t)

The bridge clones values and object references; the value subsystem
(ecma-helpers-value.c) is not in src, so the 24-bit tagged value word is
modelled as a sum of its ownership-relevant kinds per the spec, and the
reference-count state of the external collaborators is explicit. -/

/-- Modelled from the spec: an ecma value as seen by ownership (simple
values own nothing, numbers are boxed, strings and objects are counted
references). -/
inductive EcmaValue where
  | simple (n : Nat)
  | number (a : Nat)
  | strRef (a : Nat)
  | objRef (a : Nat)
deriving DecidableEq

/-- External reference-count state: per-object and per-string counters and
the set of live boxed numbers. -/
structure RefState where
  objRefs : Nat → Nat
  strRefs : Nat → Nat
  numBoxes : List Nat
deriving Inhabited

/-- The address picked by the number-box allocator: one above every live box. -/
def allocNumberAddr (s : RefState) : Nat := (s.numBoxes.foldr max 0) + 1

/-- Modelled from the spec: ecma_copy_value clones an owned value — cloning
an object reference takes a new reference, cloning a string takes a new
reference, cloning a boxed number allocates a fresh box, simple values are
copied verbatim. -/
def ecma_copy_value (v : EcmaValue) (s : RefState) : EcmaValue × RefState :=
  match v with
  | .simple n => (.simple n, s)
  | .number _ =>
    let f := allocNumberAddr s
    (.number f, { s with numBoxes := f :: s.numBoxes })
  | .strRef a => (.strRef a, { s with strRefs := fun x => if x = a then s.strRefs x + 1 else s.strRefs x })
  | .objRef a => (.objRef a, { s with objRefs := fun x => if x = a then s.objRefs x + 1 else s.objRefs x })

/-- Modelled from the spec: ecma_free_value releases an owned value —
dereferences an object or string reference, deallocates a number box, does
nothing for simple values. -/
def ecma_free_value (v : EcmaValue) (s : RefState) : RefState :=
  match v with
  | .simple _ => s
  | .number a => { s with numBoxes := s.numBoxes.erase a }
  | .strRef a => { s with strRefs := fun x => if x = a then s.strRefs x - 1 else s.strRefs x }
  | .objRef a => { s with objRefs := fun x => if x = a then s.objRefs x - 1 else s.objRefs x }

/-- Modelled from the spec: ecma_ref_object increments an object reference count. -/
def ecma_ref_object (a : Nat) (s : RefState) : RefState :=
  { s with objRefs := fun x => if x = a then s.objRefs x + 1 else s.objRefs x }

/-- Modelled from the spec: ecma_deref_object decrements an object reference count. -/
def ecma_deref_object (a : Nat) (s : RefState) : RefState :=
  { s with objRefs := fun x => if x = a then s.objRefs x - 1 else s.objRefs x }

/-- A named property record as seen by the bridge: the flag byte, the stored
value at the ownership level, and the getter/setter pair contents. -/
structure BridgeProperty where
  flags : PropFlags
  value : EcmaValue
  getter : Option Nat
  setter : Option Nat
deriving DecidableEq

/-- ecma_property_descriptor_t: the detached, ownership-transferring
snapshot with per-field is-defined flags. -/
structure ecma_property_descriptor_t where
  is_value_defined : Bool
  value : EcmaValue
  is_writable_defined : Bool
  is_writable : Bool
  is_enumerable_defined : Bool
  is_enumerable : Bool
  is_configurable_defined : Bool
  is_configurable : Bool
  is_get_defined : Bool
  get_p : Option Nat
  is_set_defined : Bool
  set_p : Option Nat
deriving DecidableEq

/-- ecma_make_empty_property_descriptor (lines 1170-1189): every is-defined
flag false, neutral defaults. -/
def ecma_make_empty_property_descriptor : ecma_property_descriptor_t :=
  { is_value_defined := false, value := EcmaValue.simple 0,
    is_writable_defined := false, is_writable := false,
    is_enumerable_defined := false, is_enumerable := false,
    is_configurable_defined := false, is_configurable := false,
    is_get_defined := false, get_p := none,
    is_set_defined := false, set_p := none }

/-- ecma_get_property_descriptor_from_property (lines 1228-1263): always
sets enumerable and configurable; for named data records clones the value
and sets writable; for named accessor records copies getter and setter and
takes a reference to each non-null one.  The record itself is only read; it
is returned unchanged alongside the snapshot. -/
def ecma_get_property_descriptor_from_property (p : BridgeProperty) (s : RefState) :
    ecma_property_descriptor_t × BridgeProperty × RefState :=
  let d0 := ecma_make_empty_property_descriptor
  let d1 := { d0 with is_enumerable := p.flags.enumerable, is_enumerable_defined := true,
                      is_configurable := p.flags.configurable, is_configurable_defined := true }
  if p.flags.nameddata then
    let (v, s1) := ecma_copy_value p.value s
    ({ d1 with value := v, is_value_defined := true,
               is_writable := p.flags.writable, is_writable_defined := true }, p, s1)
  else if p.flags.namedaccessor then
    let s1 := match p.getter with
      | some g => ecma_ref_object g s
      | none => s
    let s2 := match p.setter with
      | some g => ecma_ref_object g s1
      | none => s1
    ({ d1 with get_p := p.getter, is_get_defined := true,
               set_p := p.setter, is_set_defined := true }, p, s2)
  else (d1, p, s)

/-- ecma_free_property_descriptor (lines 1195-1216): releases the owned
value if defined, dereferences defined non-null getter and setter, and
resets the snapshot to the empty descriptor. -/
def ecma_free_property_descriptor (d : ecma_property_descriptor_t) (s : RefState) :
    ecma_property_descriptor_t × RefState :=
  let s1 := if d.is_value_defined then ecma_free_value d.value s else s
  let s2 := match d.is_get_defined, d.get_p with
    | true, some g => ecma_deref_object g s1
    | _, _ => s1
  let s3 := match d.is_set_defined, d.set_p with
    | true, some g => ecma_deref_object g s2
    | _, _ => s2
  (ecma_make_empty_property_descriptor, s3)

/-! ## Theorems -/

/-! ### Consistency of the modelled constants with the JERRY_STATIC_ASSERTs
of ecma-helpers.c (lines 36-73) -/

/-- Object types fit below the container mask (lines 36-37). -/
theorem static_assert_object_types_below_mask :
    ECMA_OBJECT_TYPE_MAX ≤ ECMA_OBJECT_TYPE_MASK := by decide

/-- Lexical environment types fit below the container mask (lines 42-43). -/
theorem static_assert_lex_env_types_below_mask :
    ECMA_LEXICAL_ENVIRONMENT_TYPE_MAX ≤ ECMA_OBJECT_TYPE_MASK := by decide

/-- The built-in flag follows the object type field (lines 48-49). -/
theorem static_assert_built_in_flag_follows_type :
    ECMA_OBJECT_TYPE_MASK + 1 = ECMA_OBJECT_FLAG_BUILT_IN_OR_LEXICAL_ENV := by decide

/-- The gc-visited flag follows the built-in flag (lines 54-55). -/
theorem static_assert_gc_flag_follows_built_in :
    ECMA_OBJECT_FLAG_GC_VISITED = ECMA_OBJECT_FLAG_BUILT_IN_OR_LEXICAL_ENV <<< 1 := by decide

/-- The extensible flag follows the gc-visited flag (lines 60-61). -/
theorem static_assert_extensible_follows_gc :
    ECMA_OBJECT_FLAG_EXTENSIBLE = ECMA_OBJECT_FLAG_GC_VISITED <<< 1 := by decide

/-- The reference-count unit follows the extensible flag, and the maximum
packed reference count fills the remaining bits (lines 66-73). -/
theorem static_assert_ref_one_and_max_ref :
    ECMA_OBJECT_REF_ONE = ECMA_OBJECT_FLAG_EXTENSIBLE <<< 1 ∧
    (ECMA_OBJECT_MAX_REF ||| (ECMA_OBJECT_REF_ONE - 1)) = 65535 := by decide

/-! ### Helper lemmas about the packed descriptor word -/

/-- Masking with the five low bits is reduction mod 32. -/
theorem word_and_31_eq_mod (x : Nat) : x &&& 31 = x % 32 := by
  simpa using Nat.and_pow_two_sub_one_eq_mod x 5

/-- The built-in flag together with the type mask is the low-five-bits mask. -/
theorem lex_env_mask_or : (16 : Nat) ||| 15 = 31 := by decide

/-- Or with the built-in flag commutes with masking to the low five bits. -/
theorem word_or_flag_and_31 (w : Nat) :
    (w ||| 16) &&& 31 = (w &&& 31) ||| 16 := by
  rw [Nat.and_distrib_right]
  have h16 : (16 : Nat) &&& 31 = 16 := by decide
  rw [h16]

/-- Finite check: a low-five-bits word with the built-in flag clear and the
type field below the environment threshold stays below the threshold when
the built-in flag is set. -/
theorem low_word_builtin_below_threshold :
    ∀ r < 32, r &&& 16 = 0 → r &&& 15 < 13 → ¬ (29 ≤ r ||| 16) := by decide

/-- Claim C2: ecma_is_lexical_environment holds exactly for descriptors built
by the environment constructors (and never for ecma_create_object), is a
pure function of the packed type/flag/refcount word, and stays false for an
ordinary object even after ecma_set_object_is_builtin sets the shared
built-in-or-lexical-env bit (under the asserted preconditions of that setter). -/
theorem claim_C2 :
    (∀ proto ext t, t ≤ ECMA_OBJECT_TYPE_MAX →
      ecma_is_lexical_environment (ecma_create_object proto ext t) = false) ∧
    (∀ outer, ecma_is_lexical_environment (ecma_create_decl_lex_env outer) = true) ∧
    (∀ outer b bref pth, ecma_is_lexical_environment b = false →
      ∃ env, ecma_create_object_lex_env outer b bref pth = some env ∧
        ecma_is_lexical_environment env = true) ∧
    (∀ o o2 : ecma_object_t, o.type_flags_refs = o2.type_flags_refs →
      ecma_is_lexical_environment o = ecma_is_lexical_environment o2) ∧
    (∀ o o2 : ecma_object_t, ecma_set_object_is_builtin o = some o2 →
      ecma_is_lexical_environment o2 = false) := by
  refine ⟨?_, ?_, ?_, ?_, ?_⟩
  · intro proto ext t ht
    have ht7 : t ≤ 7 := by simpa [ECMA_OBJECT_TYPE_MAX] using ht
    have hor : ∀ u, u < 8 → u ||| 64 = u + 64 := by decide
    have h29 : (16 : Nat) ||| 13 = 29 := by decide
    simp only [ecma_create_object, ecma_init_gc_info, ecma_is_lexical_environment,
      ECMA_OBJECT_FLAG_BUILT_IN_OR_LEXICAL_ENV, ECMA_LEXICAL_ENVIRONMENT_TYPE_START,
      ECMA_OBJECT_TYPE_MASK, ECMA_OBJECT_FLAG_EXTENSIBLE, ECMA_OBJECT_REF_ONE]
    rw [h29, lex_env_mask_or, word_and_31_eq_mod, decide_eq_false_iff_not]
    cases ext
    · simp only [Bool.false_eq_true, if_false]
      omega
    · simp only [if_true]
      rw [hor t (by omega)]
      omega
  · intro outer
    have h13 : (16 : Nat) ||| 13 = 29 := by decide
    simp only [ecma_create_decl_lex_env, ecma_init_gc_info, ecma_is_lexical_environment,
      ECMA_OBJECT_FLAG_BUILT_IN_OR_LEXICAL_ENV, ECMA_LEXICAL_ENVIRONMENT_DECLARATIVE,
      ECMA_LEXICAL_ENVIRONMENT_TYPE_START, ECMA_OBJECT_TYPE_MASK, ECMA_OBJECT_REF_ONE,
      h13, lex_env_mask_or, word_and_31_eq_mod]
    decide
  · intro outer b bref pth hb
    simp only [ecma_create_object_lex_env, hb, Bool.false_eq_true, if_false]
    refine ⟨_, rfl, ?_⟩
    have h13 : (16 : Nat) ||| 13 = 29 := by decide
    have h14 : (16 : Nat) ||| 14 = 30 := by decide
    have h15 : (16 : Nat) ||| 15 = 31 := by decide
    cases pth <;>
      simp only [ecma_init_gc_info, ecma_is_lexical_environment,
        ECMA_OBJECT_FLAG_BUILT_IN_OR_LEXICAL_ENV, ECMA_LEXICAL_ENVIRONMENT_TYPE_START,
        ECMA_LEXICAL_ENVIRONMENT_OBJECT_BOUND, ECMA_LEXICAL_ENVIRONMENT_THIS_OBJECT_BOUND,
        ECMA_OBJECT_TYPE_MASK, ECMA_OBJECT_REF_ONE, if_true, if_false,
        Bool.false_eq_true, h13, h14, h15, lex_env_mask_or, word_and_31_eq_mod] <;>
      decide
  · intro o o2 h
    simp only [ecma_is_lexical_environment, h]
  · intro o o2 hset
    simp only [ecma_set_object_is_builtin] at hset
    split_ifs at hset with h1 h2
    have hw16 : o.type_flags_refs &&& 16 = 0 := by
      simpa [ECMA_OBJECT_FLAG_BUILT_IN_OR_LEXICAL_ENV] using h1
    have hw15 : o.type_flags_refs &&& 15 < 13 := by
      have := h2
      simp only [ECMA_LEXICAL_ENVIRONMENT_TYPE_START, ECMA_OBJECT_TYPE_MASK,
        not_le] at this
      exact this
    cases hset
    simp only [ecma_is_lexical_environment,
      ECMA_OBJECT_FLAG_BUILT_IN_OR_LEXICAL_ENV, ECMA_LEXICAL_ENVIRONMENT_TYPE_START,
      ECMA_OBJECT_TYPE_MASK]
    have h29 : (16 : Nat) ||| 13 = 29 := by decide
    simp only [h29, lex_env_mask_or, word_or_flag_and_31]
    rw [decide_eq_false_iff_not]
    have hr31 : o.type_flags_refs &&& 31 < 32 := by
      have := Nat.and_le_right (n := o.type_flags_refs) (m := 31)
      omega
    have hra : (o.type_flags_refs &&& 31) &&& 16 = 0 := by
      rw [Nat.and_assoc]
      have : (31 : Nat) &&& 16 = 16 := by decide
      rw [this]
      exact hw16
    have hrb : (o.type_flags_refs &&& 31) &&& 15 < 13 := by
      rw [Nat.and_assoc]
      have : (31 : Nat) &&& 15 = 15 := by decide
      rw [this]
      exact hw15
    exact low_word_builtin_below_threshold (o.type_flags_refs &&& 31) hr31 hra hrb

/-- Witness for claim C2 at concrete inputs. -/
theorem claim_C2_witness :
    ecma_is_lexical_environment (ecma_create_object none true 3) = false ∧
    ecma_is_lexical_environment (ecma_create_decl_lex_env none) = true ∧
    (∃ env, ecma_create_object_lex_env none (ecma_create_object none true 3) 0 true
        = some env ∧ ecma_is_lexical_environment env = true) ∧
    ecma_is_lexical_environment
      { type_flags_refs := 144, prototype_or_outer_reference_cp := none,
        property_list_or_bound_object_cp := none } = false := by
  have h1 := claim_C2.1 none true 3 (by decide)
  have h3 := claim_C2.2.2.1 none (ecma_create_object none true 3) 0 true h1
  have h5 := claim_C2.2.2.2.2 (ecma_create_object none false 0)
    { type_flags_refs := 144, prototype_or_outer_reference_cp := none,
      property_list_or_bound_object_cp := none } (by rfl)
  exact ⟨h1, claim_C2.2.1 none, h3, h5⟩

/-- Claim C5: ecma_bytecode_ref terminates the runtime fatally (with the
ref-count-limit error) when the 16-bit counter is at UINT16_MAX and never
wraps it; below the bound it increments the counter by exactly one. -/
theorem claim_C5 (bc : ecma_compiled_code_t) :
    (bc.refs = UINT16_MAX →
      ecma_bytecode_ref bc = Except.error JerryFatalCode.ERR_REF_COUNT_LIMIT) ∧
    (bc.refs < UINT16_MAX →
      ecma_bytecode_ref bc = Except.ok { bc with refs := bc.refs + 1 }) := by
  constructor
  · intro h
    have h65 : (65535 : Nat) ≤ bc.refs := by simp [UINT16_MAX] at h; omega
    simp only [ecma_bytecode_ref, UINT16_MAX]
    rw [if_pos h65]
  · intro h
    have h65 : bc.refs < 65535 := by simpa [UINT16_MAX] using h
    simp only [ecma_bytecode_ref, UINT16_MAX]
    rw [if_neg (by omega)]
    have hmod : (bc.refs + 1) % 65536 = bc.refs + 1 := Nat.mod_eq_of_lt (by omega)
    rw [hmod]

/-- Witness for claim C5: the counter at the bound aborts, a counter of 5
increments to 6. -/
theorem claim_C5_witness :
    (ecma_compiled_code_t.refs
        { refs := 65535, isFunction := false, bytecodeRegion := [], pattern_cp := 0,
          size := 1 } = UINT16_MAX) ∧
    ecma_bytecode_ref
        { refs := 65535, isFunction := false, bytecodeRegion := [], pattern_cp := 0,
          size := 1 } = Except.error JerryFatalCode.ERR_REF_COUNT_LIMIT ∧
    (ecma_compiled_code_t.refs
        { refs := 5, isFunction := false, bytecodeRegion := [], pattern_cp := 0,
          size := 1 } < UINT16_MAX) ∧
    ecma_bytecode_ref
        { refs := 5, isFunction := false, bytecodeRegion := [], pattern_cp := 0,
          size := 1 } =
      Except.ok { refs := 5 + 1, isFunction := false, bytecodeRegion := [],
                  pattern_cp := 0, size := 1 } :=
  ⟨by decide,
   (claim_C5 _).1 (by decide),
   by decide,
   (claim_C5 _).2 (by decide)⟩

/-- The 24-bit value word reassembles from its shifted high part and its low
16 bits. -/
theorem shift_reassemble (v : Nat) : ((v >>> 16) <<< 16) ||| (v % 65536) = v := by
  apply Nat.eq_of_testBit_eq
  intro i
  have h65536 : (65536 : Nat) = 2 ^ 16 := by norm_num
  rw [h65536]
  simp only [Nat.testBit_or, Nat.testBit_shiftLeft, Nat.testBit_shiftRight,
    Nat.testBit_mod_two_pow]
  by_cases h : 16 ≤ i
  · have hi : 16 + (i - 16) = i := by omega
    rw [hi]
    have hnot : ¬ i < 16 := by omega
    simp [h, hnot]
  · have hlt : i < 16 := by omega
    simp [h, hlt]

/-- Claim C10: a named data property value is stored split into an 8-bit
high field and a 16-bit low field, and for every value representable in 24
bits the set / get pair is the identity. -/
theorem claim_C10 (p : ecma_property_t) (v : Nat) (hd : p.flags.nameddata = true)
    (hv : v < 2 ^ 24) :
    ∃ p2, ecma_set_named_data_property_value p v = some p2 ∧
      p2.named_data_property_value_high = v / 2 ^ 16 ∧
      p2.value_low = v % 2 ^ 16 ∧
      ecma_get_named_data_property_value p2 = some v := by
  have hhi : v >>> 16 < 256 := by
    rw [Nat.shiftRight_eq_div_pow]
    have : v < 2 ^ 16 * 256 := by
      have : (2 : Nat) ^ 16 * 256 = 2 ^ 24 := by norm_num
      omega
    exact Nat.div_lt_of_lt_mul this
  have hhimod : (v >>> 16) % 256 = v >>> 16 := Nat.mod_eq_of_lt hhi
  refine ⟨{ p with named_data_property_value_high := (v >>> 16) % 256, value_low := v % 65536 }, ?_, ?_, ?_, ?_⟩
  · simp only [ecma_set_named_data_property_value, hd, if_true]
  · rw [Nat.shiftRight_eq_div_pow] at hhi
    simp only [Nat.shiftRight_eq_div_pow]
    exact Nat.mod_eq_of_lt hhi
  · norm_num
  · simp only [ecma_get_named_data_property_value, namedDataValueWord, hd, if_true,
      hhimod, shift_reassemble]

/-- Witness for claim C10 at a concrete record and value. -/
theorem claim_C10_witness :
    (PropFlags.nameddata
      (ecma_property_t.flags
        { ecma_alloc_property with
          flags := { emptyPropFlags with nameddata := true } }) = true) ∧
    ((11259375 : Nat) < 2 ^ 24) ∧
    ∃ p2, ecma_set_named_data_property_value
        { ecma_alloc_property with flags := { emptyPropFlags with nameddata := true } }
        11259375 = some p2 ∧
      p2.named_data_property_value_high = 11259375 / 2 ^ 16 ∧
      p2.value_low = 11259375 % 2 ^ 16 ∧
      ecma_get_named_data_property_value p2 = some 11259375 :=
  ⟨by decide, by norm_num,
   claim_C10 _ 11259375 (by decide) (by norm_num)⟩

/-! ### Helper simp lemmas for the property-list operations -/

/-- Updating then reading the same address. -/
@[simp] theorem mapUpdate_same {α : Type} (f : Nat → Option α) (a : Nat) (v : Option α) :
    mapUpdate f a v a = v := by
  simp [mapUpdate]

/-- Updating then reading a different address. -/
theorem mapUpdate_ne {α : Type} (f : Nat → Option α) (a x : Nat) (v : Option α)
    (h : x ≠ a) : mapUpdate f a v x = f x := by
  simp [mapUpdate, h]

/-- The conditional configurable-bit update keeps the kind bits. -/
@[simp] theorem condFlags_configurable_nameddata (f : PropFlags) (b : Bool) :
    (if b then { f with configurable := true } else f).nameddata = f.nameddata := by
  cases b <;> rfl

/-- The conditional enumerable-bit update keeps the kind bits. -/
@[simp] theorem condFlags_enumerable_nameddata (f : PropFlags) (b : Bool) :
    (if b then { f with enumerable := true } else f).nameddata = f.nameddata := by
  cases b <;> rfl

/-- The conditional writable-bit update keeps the kind bits. -/
@[simp] theorem condFlags_writable_nameddata (f : PropFlags) (b : Bool) :
    (if b then { f with writable := true } else f).nameddata = f.nameddata := by
  cases b <;> rfl

/-- The conditional configurable-bit update keeps the accessor bit. -/
@[simp] theorem condFlags_configurable_accessor (f : PropFlags) (b : Bool) :
    (if b then { f with configurable := true } else f).namedaccessor = f.namedaccessor := by
  cases b <;> rfl

/-- The conditional enumerable-bit update keeps the accessor bit. -/
@[simp] theorem condFlags_enumerable_accessor (f : PropFlags) (b : Bool) :
    (if b then { f with enumerable := true } else f).namedaccessor = f.namedaccessor := by
  cases b <;> rfl

/-- Comparing an interned string with itself succeeds. -/
@[simp] theorem compare_strings_self (n : Nat) : ecma_compare_ecma_strings n n = true := by
  simp [ecma_compare_ecma_strings]

/-- Claim C9: ecma_find_internal_property has the unstated precondition that
the requested kind is neither the prototype kind nor the extensible kind:
calling the lookup (or ecma_get_internal_property, or the creation that
asserts via the lookup) with either kind is an asserted programming error,
so records of those kinds never appear in a property list; with any other
kind the lookup proceeds to the list scan. -/
theorem claim_C9 (st : EcmaState) (fresh : Nat) :
    ecma_find_internal_property st InternalPropertyId.prototype = none ∧
    ecma_find_internal_property st InternalPropertyId.extensible = none ∧
    ecma_get_internal_property st InternalPropertyId.prototype = none ∧
    ecma_get_internal_property st InternalPropertyId.extensible = none ∧
    ecma_create_internal_property st InternalPropertyId.prototype fresh = none ∧
    ecma_create_internal_property st InternalPropertyId.extensible fresh = none ∧
    (∀ property_id : InternalPropertyId,
      ecma_find_internal_property st property_id =
        if property_id = InternalPropertyId.prototype ∨
           property_id = InternalPropertyId.extensible then none
        else findInternalScan st property_id st.property_list) := by
  have hfp : ecma_find_internal_property st InternalPropertyId.prototype = none := by
    simp [ecma_find_internal_property]
  have hfe : ecma_find_internal_property st InternalPropertyId.extensible = none := by
    simp [ecma_find_internal_property]
  refine ⟨hfp, hfe, ?_, ?_, ?_, ?_, ?_⟩
  · simp [ecma_get_internal_property, hfp]
  · simp [ecma_get_internal_property, hfe]
  · simp [ecma_create_internal_property, hfp]
  · simp [ecma_create_internal_property, hfe]
  · intro property_id
    by_cases h : property_id = InternalPropertyId.prototype ∨
        property_id = InternalPropertyId.extensible
    · rcases h with h | h <;> subst h
      · simp [hfp]
      · simp [hfe]
    · push_neg at h
      simp [ecma_find_internal_property, h.1, h.2, h]

/-- The data flag byte always carries the data kind bit. -/
@[simp] theorem buildNamedDataFlags_nameddata (w e c : Bool) :
    (buildNamedDataFlags w e c).nameddata = true := by
  cases w <;> cases e <;> cases c <;> rfl

/-- The data flag byte never carries the accessor kind bit. -/
@[simp] theorem buildNamedDataFlags_accessor (w e c : Bool) :
    (buildNamedDataFlags w e c).namedaccessor = false := by
  cases w <;> cases e <;> cases c <;> rfl

/-- The accessor flag byte always carries the accessor kind bit. -/
@[simp] theorem buildNamedAccessorFlags_accessor (e c : Bool) :
    (buildNamedAccessorFlags e c).namedaccessor = true := by
  cases e <;> cases c <;> rfl

/-- The accessor flag byte never carries the data kind bit. -/
@[simp] theorem buildNamedAccessorFlags_nameddata (e c : Bool) :
    (buildNamedAccessorFlags e c).nameddata = false := by
  cases e <;> cases c <;> rfl

/-- Invalidating by name removes the cache row of that name. -/
theorem invalidate_name_clears_row (st : EcmaState) (n : Nat) :
    (ecma_lcache_invalidate st (some n) none).lcache n = none := by
  simp only [ecma_lcache_invalidate, lcacheRowMatches]
  cases st.lcache n <;> simp

/-- Characterization of a successful ecma_create_named_data_property: when
the find precondition holds, the new record is prepended to the list with
the data-kind flag and the requested name, and the cache row of the name is
invalidated. -/
theorem create_named_data_eq (st st0 : EcmaState) (name_p : Nat) (w e c : Bool)
    (fresh : Nat) (hF : ecma_find_named_property st name_p = (some none, st0)) :
    ecma_create_named_data_property st name_p w e c fresh =
      some (fresh, ecma_lcache_invalidate
        { st0 with
          events := st0.events ++ [Event.refString name_p],
          props := mapUpdate st0.props fresh
            (some (ecma_create_named_data_property_record name_p w e c)),
          property_list := fresh :: st0.property_list } (some name_p) none) := by
  simp only [ecma_create_named_data_property, hF, ecma_set_named_data_property_value,
    buildNamedDataFlags_nameddata, if_true]
  rfl

/-- The record built by a data-property creation carries the data flag byte. -/
@[simp] theorem create_record_flags (n : Nat) (w e c : Bool) :
    (ecma_create_named_data_property_record n w e c).flags = buildNamedDataFlags w e c := rfl

/-- The record built by a data-property creation carries the requested name. -/
@[simp] theorem create_record_name (n : Nat) (w e c : Bool) :
    (ecma_create_named_data_property_record n w e c).name_p = n := rfl

/-- After a successful data-property creation, ecma_find_named_property
misses the invalidated cache row, scans the list and returns the new record
at the head, memoizing it. -/
theorem find_after_create_data (st0 : EcmaState) (name_p : Nat) (w e c : Bool)
    (fresh : Nat) :
    ecma_find_named_property
      (ecma_lcache_invalidate
        { st0 with
          events := st0.events ++ [Event.refString name_p],
          props := mapUpdate st0.props fresh
            (some (ecma_create_named_data_property_record name_p w e c)),
          property_list := fresh :: st0.property_list } (some name_p) none) name_p
    = (some (some fresh),
       ecma_lcache_insert
         (ecma_lcache_invalidate
           { st0 with
             events := st0.events ++ [Event.refString name_p],
             props := mapUpdate st0.props fresh
               (some (ecma_create_named_data_property_record name_p w e c)),
             property_list := fresh :: st0.property_list } (some name_p) none)
         name_p (some fresh)) := by
  have hlk := invalidate_name_clears_row
    { st0 with
      events := st0.events ++ [Event.refString name_p],
      props := mapUpdate st0.props fresh
        (some (ecma_create_named_data_property_record name_p w e c)),
      property_list := fresh :: st0.property_list } name_p
  simp only [ecma_find_named_property, ecma_lcache_lookup, hlk]
  have hprop : (ecma_lcache_invalidate
      { st0 with
        events := st0.events ++ [Event.refString name_p],
        props := mapUpdate st0.props fresh
          (some (ecma_create_named_data_property_record name_p w e c)),
        property_list := fresh :: st0.property_list } (some name_p) none).props fresh
      = some (ecma_create_named_data_property_record name_p w e c) := by
    simp [ecma_lcache_invalidate, mapUpdate]
  simp only [ecma_lcache_invalidate, findNamedScan, mapUpdate_same,
    create_record_flags, buildNamedDataFlags_nameddata, create_record_name,
    compare_strings_self, if_true]

/-- Claim C3: whenever ecma_create_named_data_property succeeds (its asserted
precondition that the object has no named property with this name held), an
ecma_find_named_property with the same name returns exactly the record just
created, and a second ecma_create_named_data_property with the same name
violates the uniqueness precondition: it is the asserted programming error
none, for any attribute bits and any allocator answer. -/
theorem claim_C3 (st : EcmaState) (name_p : Nat) (w e c : Bool) (fresh : Nat)
    (w2 e2 c2 : Bool) (fresh2 : Nat) :
    match ecma_create_named_data_property st name_p w e c fresh with
    | none => True
    | some (a2, st2) =>
        a2 = fresh ∧
        (ecma_find_named_property st2 name_p).1 = some (some fresh) ∧
        ecma_create_named_data_property st2 name_p w2 e2 c2 fresh2 = none := by
  rcases hF : ecma_find_named_property st name_p with ⟨r, st0⟩
  rcases r with _ | r1
  · simp [ecma_create_named_data_property, hF]
  rcases r1 with _ | x
  · have hc := create_named_data_eq st st0 name_p w e c fresh hF
    rw [hc]
    have hfind2 := find_after_create_data st0 name_p w e c fresh
    refine ⟨rfl, ?_, ?_⟩
    · rw [hfind2]
    · simp [ecma_create_named_data_property, hfind2]
  · simp [ecma_create_named_data_property, hF]

/-- The data-property creation path is not vacuous: on an empty descriptor
state it succeeds. -/
theorem create_named_data_nonvacuous :
    (ecma_create_named_data_property
      { props := fun _ => none, pairs := fun _ => none, property_list := [],
        lcache := fun _ => none, bcHeap := fun _ => none, events := [] }
      5 true true true 0).isSome = true := by
  rfl

/-- Claim C8: ecma_create_named_accessor_property links the new record into
the property list before assigning the getter and the setter, so both
setter calls see their asserted precondition (accessor kind, record
reachable from the descriptor) satisfied: whenever the creation's own find
precondition holds, the whole call succeeds (neither assertion fails) and
the shared pair holds exactly the requested getter and setter. -/
theorem claim_C8 (st : EcmaState) (name_p : Nat) (g s : Option Nat) (e c : Bool)
    (freshProp freshPair : Nat)
    (hF : (ecma_find_named_property st name_p).1 = some none) :
    match ecma_create_named_accessor_property st name_p g s e c freshProp freshPair with
    | none => False
    | some (a2, st2) => a2 = freshProp ∧ st2.pairs freshPair = some (g, s) := by
  rcases hFp : ecma_find_named_property st name_p with ⟨r, st0⟩
  rw [hFp] at hF
  simp only at hF
  subst hF
  simp only [ecma_create_named_accessor_property, hFp]
  simp [ecma_set_named_accessor_property_getter, ecma_set_named_accessor_property_setter,
    ecma_assert_object_contains_the_property, mapUpdate_same, mapUpdate,
    ecma_lcache_invalidate, List.contains_cons]

/-- Witness for claim C8: on an empty descriptor state the accessor creation
succeeds and stores the requested getter and setter. -/
theorem claim_C8_witness :
    ((ecma_find_named_property
        { props := fun _ => none, pairs := fun _ => none, property_list := [],
          lcache := fun _ => none, bcHeap := fun _ => none, events := [] } 7).1
      = some none) ∧
    match ecma_create_named_accessor_property
        { props := fun _ => none, pairs := fun _ => none, property_list := [],
          lcache := fun _ => none, bcHeap := fun _ => none, events := [] }
        7 (some 4) (some 9) false true 0 1 with
    | none => False
    | some (a2, st2) => a2 = 0 ∧ st2.pairs 1 = some (some 4, some 9) :=
  ⟨rfl,
   claim_C8
     { props := fun _ => none, pairs := fun _ => none, property_list := [],
       lcache := fun _ => none, bcHeap := fun _ => none, events := [] }
     7 (some 4) (some 9) false true 0 1 rfl⟩

/-- Claim C6: for a named data property record, building a detached
descriptor with ecma_get_property_descriptor_from_property and then calling
ecma_free_property_descriptor on it restores every external reference count
(object references, string references, live number boxes) exactly, and the
original record is returned unmodified by the read-only snapshot. -/
theorem claim_C6 (p : BridgeProperty) (s : RefState) (hd : p.flags.nameddata = true) :
    (ecma_free_property_descriptor
        (ecma_get_property_descriptor_from_property p s).1
        (ecma_get_property_descriptor_from_property p s).2.2).2 = s ∧
    (ecma_get_property_descriptor_from_property p s).2.1 = p := by
  constructor
  · cases hv : p.value with
    | simple n =>
      simp [ecma_get_property_descriptor_from_property, ecma_free_property_descriptor,
        ecma_make_empty_property_descriptor, ecma_copy_value, ecma_free_value, hd, hv]
    | number a =>
      simp [ecma_get_property_descriptor_from_property, ecma_free_property_descriptor,
        ecma_make_empty_property_descriptor, ecma_copy_value, ecma_free_value, hd, hv,
        List.erase_cons_head]
    | strRef a =>
      simp only [ecma_get_property_descriptor_from_property, ecma_free_property_descriptor,
        ecma_make_empty_property_descriptor, ecma_copy_value, ecma_free_value, hd, hv,
        if_true]
      have hsr : (fun x => if x = a then
            (if x = a then s.strRefs x + 1 else s.strRefs x) - 1
          else (if x = a then s.strRefs x + 1 else s.strRefs x)) = s.strRefs := by
        funext x
        by_cases hx : x = a <;> simp [hx]
      simp [hsr]
    | objRef a =>
      simp only [ecma_get_property_descriptor_from_property, ecma_free_property_descriptor,
        ecma_make_empty_property_descriptor, ecma_copy_value, ecma_free_value, hd, hv,
        if_true]
      have hor : (fun x => if x = a then
            (if x = a then s.objRefs x + 1 else s.objRefs x) - 1
          else (if x = a then s.objRefs x + 1 else s.objRefs x)) = s.objRefs := by
        funext x
        by_cases hx : x = a <;> simp [hx]
      simp [hor]
  · cases hv : p.value <;>
      simp [ecma_get_property_descriptor_from_property, hd, hv]

/-- Witness for claim C6 at a concrete data record holding an object
reference. -/
theorem claim_C6_witness :
    (PropFlags.nameddata (BridgeProperty.flags
      { flags := { emptyPropFlags with nameddata := true, writable := true },
        value := EcmaValue.objRef 3, getter := none, setter := none }) = true) ∧
    ((ecma_free_property_descriptor
        (ecma_get_property_descriptor_from_property
          { flags := { emptyPropFlags with nameddata := true, writable := true },
            value := EcmaValue.objRef 3, getter := none, setter := none }
          { objRefs := fun _ => 2, strRefs := fun _ => 2, numBoxes := [] }).1
        (ecma_get_property_descriptor_from_property
          { flags := { emptyPropFlags with nameddata := true, writable := true },
            value := EcmaValue.objRef 3, getter := none, setter := none }
          { objRefs := fun _ => 2, strRefs := fun _ => 2, numBoxes := [] }).2.2).2
      = { objRefs := fun _ => 2, strRefs := fun _ => 2, numBoxes := [] }) ∧
    ((ecma_get_property_descriptor_from_property
        { flags := { emptyPropFlags with nameddata := true, writable := true },
          value := EcmaValue.objRef 3, getter := none, setter := none }
        { objRefs := fun _ => 2, strRefs := fun _ => 2, numBoxes := [] }).2.1
      = { flags := { emptyPropFlags with nameddata := true, writable := true },
          value := EcmaValue.objRef 3, getter := none, setter := none }) := by
  have h := claim_C6
    { flags := { emptyPropFlags with nameddata := true, writable := true },
      value := EcmaValue.objRef 3, getter := none, setter := none }
    { objRefs := fun _ => 2, strRefs := fun _ => 2, numBoxes := [] }
    (by rfl)
  exact ⟨rfl, h.1, h.2⟩

/-- The unlink walk succeeds on a member, keeps only members, and when the
address occurs exactly once the result avoids it entirely. -/
theorem removeFirst_of_mem : ∀ (l : List Nat) (a : Nat), a ∈ l →
    ∃ l2, removeFirst l a = some l2 ∧ (∀ b ∈ l2, b ∈ l) ∧
      (l.count a = 1 → ∀ b ∈ l2, b ≠ a) := by
  intro l
  induction l with
  | nil => intro a ha; simp at ha
  | cons x xs ih =>
    intro a ha
    by_cases hx : x = a
    · subst hx
      refine ⟨xs, by simp [removeFirst], fun b hb => List.mem_cons_of_mem _ hb, ?_⟩
      intro hc b hb hba
      subst hba
      have h1 : 1 ≤ xs.count b := List.count_pos_iff.mpr hb
      have h2 : (b :: xs).count b = xs.count b + 1 := by
        simp [List.count_cons]
      omega
    · have ha' : a ∈ xs := by
        rcases List.mem_cons.mp ha with h | h
        · exact absurd h.symm hx
        · exact h
      obtain ⟨l2, hrf, hmem2, hne2⟩ := ih a ha'
      refine ⟨x :: l2, by simp [removeFirst, hx, hrf], ?_, ?_⟩
      · intro b hb
        rcases List.mem_cons.mp hb with h | h
        · exact h ▸ List.mem_cons_self x xs
        · exact List.mem_cons_of_mem _ (hmem2 b h)
      · intro hc b hb
        have hxa : ¬ (a = x) := fun h => hx h.symm
        have hcx : xs.count a = 1 := by
          have : (x :: xs).count a = xs.count a := by
            simp [List.count_cons, hxa]
          omega
        rcases List.mem_cons.mp hb with h | h
        · exact h ▸ fun h2 => hx h2
        · exact hne2 hcx b h

/-- The linear scan reports absence when no listed record is a named record
carrying the name. -/
theorem findNamedScan_absent (st2 : EcmaState) (n : Nat) : ∀ l : List Nat,
    (∀ b ∈ l, ∃ q, st2.props b = some q ∧
      ((q.flags.nameddata = true ∨ q.flags.namedaccessor = true) → q.name_p ≠ n)) →
    findNamedScan st2 n l = some none := by
  intro l
  induction l with
  | nil => intro _; rfl
  | cons b bs ih =>
    intro h
    obtain ⟨q, hq, hname⟩ := h b (List.mem_cons_self b bs)
    have hr := ih (fun b2 hb2 => h b2 (List.mem_cons_of_mem _ hb2))
    simp only [findNamedScan, hq]
    by_cases hd : q.flags.nameddata = true
    · have hne : q.name_p ≠ n := hname (Or.inl hd)
      have hcmp : ecma_compare_ecma_strings n q.name_p = false := by
        show (n == q.name_p) = false
        rw [beq_eq_false_iff_ne]
        exact fun h2 => hne h2.symm
      simp [hd, hcmp, hr]
    · by_cases hacc : q.flags.namedaccessor = true
      · have hne : q.name_p ≠ n := hname (Or.inr hacc)
        have hcmp : ecma_compare_ecma_strings n q.name_p = false := by
          show (n == q.name_p) = false
          rw [beq_eq_false_iff_ne]
          exact fun h2 => hne h2.symm
        simp [hd, hacc, hcmp, hr]
      · simp [hd, hacc, hr]

/-- Invalidating by record clears a row memoizing that record and keeps an
absent row absent. -/
theorem invalidate_record_clears_row (st : EcmaState) (n a : Nat)
    (h : st.lcache n = none ∨ st.lcache n = some (some a)) :
    (ecma_lcache_invalidate st none (some a)).lcache n = none := by
  rcases h with h | h <;> simp [ecma_lcache_invalidate, lcacheRowMatches, h]

/-- A name lookup reports absence when the cache row of the name is absent
and no listed record is a named record carrying the name. -/
theorem find_absent_of (st2 : EcmaState) (n : Nat)
    (hlk : st2.lcache n = none)
    (hprops : ∀ b ∈ st2.property_list, ∃ q, st2.props b = some q ∧
       ((q.flags.nameddata = true ∨ q.flags.namedaccessor = true) → q.name_p ≠ n)) :
    (ecma_find_named_property st2 n).1 = some none := by
  have hscan := findNamedScan_absent st2 n st2.property_list hprops
  simp [ecma_find_named_property, ecma_lcache_lookup, hlk, hscan]

/-- Claim C4: after ecma_delete_property removes a named property record
from a descriptor owning it (with the per-name uniqueness invariant and a
well-formed list), ecma_find_named_property with the record's name reports
absence, whether or not the lookup cache had memoized the record for that
name beforehand: deletion invalidates the cache row of the record before
freeing it. -/
theorem claim_C4 (st : EcmaState) (a : Nat) (p : ecma_property_t) (fuel : Nat)
    (hp : st.props a = some p)
    (hkind : p.flags.nameddata = true ∨ p.flags.namedaccessor = true)
    (hmem : a ∈ st.property_list)
    (hcount : st.property_list.count a = 1)
    (hothers : ∀ b ∈ st.property_list, b ≠ a → ∃ q, st.props b = some q ∧
        ((q.flags.nameddata = true ∨ q.flags.namedaccessor = true) → q.name_p ≠ p.name_p))
    (hpair : p.flags.namedaccessor = true →
      (st.pairs p.getter_setter_pair_cp).isSome = true)
    (hcache : st.lcache p.name_p = none ∨ st.lcache p.name_p = some (some a)) :
    match ecma_delete_property st a fuel with
    | none => False
    | some st2 => (ecma_find_named_property st2 p.name_p).1 = some none := by
  obtain ⟨l2, hrf, hmem2, hne2⟩ := removeFirst_of_mem st.property_list a hmem
  have hl2 := hne2 hcount
  by_cases hdata : p.flags.nameddata = true
  · simp only [ecma_delete_property, hrf, ecma_free_property, hp, hdata, if_true]
    apply find_absent_of
    · exact invalidate_record_clears_row st p.name_p a hcache
    · intro b hb
      have hb2 : b ∈ l2 := hb
      obtain ⟨q, hq, hqn⟩ := hothers b (hmem2 b hb2) (hl2 b hb2)
      refine ⟨q, ?_, hqn⟩
      show mapUpdate st.props a none b = some q
      rw [mapUpdate_ne _ _ _ _ (hl2 b hb2)]
      exact hq
  · have hacc : p.flags.namedaccessor = true := by
      rcases hkind with h | h
      · exact absurd h hdata
      · exact h
    obtain ⟨gs, hgs⟩ := Option.isSome_iff_exists.mp (hpair hacc)
    have hgs2 : (ecma_lcache_invalidate st none (some a)).pairs
        p.getter_setter_pair_cp = some gs := hgs
    simp only [ecma_delete_property, hrf, ecma_free_property, hp, hdata,
      Bool.false_eq_true, if_false, hacc, if_true,
      ecma_free_named_accessor_property, hgs2]
    apply find_absent_of
    · exact invalidate_record_clears_row st p.name_p a hcache
    · intro b hb
      have hb2 : b ∈ l2 := hb
      obtain ⟨q, hq, hqn⟩ := hothers b (hmem2 b hb2) (hl2 b hb2)
      refine ⟨q, ?_, hqn⟩
      show mapUpdate st.props a none b = some q
      rw [mapUpdate_ne _ _ _ _ (hl2 b hb2)]
      exact hq

/-- Witness for claim C4 at a concrete descriptor state owning one data
property named 5 at address 0 with the cache row memoizing it. -/
theorem claim_C4_witness :
    (EcmaState.props
      { props := fun x => if x = 0 then
          some { ecma_alloc_property with
                 flags := { emptyPropFlags with nameddata := true }, name_p := 5 }
          else none,
        pairs := fun _ => none, property_list := [0],
        lcache := fun m => if m = 5 then some (some 0) else none,
        bcHeap := fun _ => none, events := [] } 0
      = some { ecma_alloc_property with
               flags := { emptyPropFlags with nameddata := true }, name_p := 5 }) ∧
    (EcmaState.lcache
      { props := fun x => if x = 0 then
          some { ecma_alloc_property with
                 flags := { emptyPropFlags with nameddata := true }, name_p := 5 }
          else none,
        pairs := fun _ => none, property_list := [0],
        lcache := fun m => if m = 5 then some (some 0) else none,
        bcHeap := fun _ => none, events := [] } 5 = some (some 0)) ∧
    match ecma_delete_property
      { props := fun x => if x = 0 then
          some { ecma_alloc_property with
                 flags := { emptyPropFlags with nameddata := true }, name_p := 5 }
          else none,
        pairs := fun _ => none, property_list := [0],
        lcache := fun m => if m = 5 then some (some 0) else none,
        bcHeap := fun _ => none, events := [] } 0 1 with
    | none => False
    | some st2 => (ecma_find_named_property st2 5).1 = some none := by
  refine ⟨rfl, rfl, ?_⟩
  exact claim_C4
    { props := fun x => if x = 0 then
        some { ecma_alloc_property with
               flags := { emptyPropFlags with nameddata := true }, name_p := 5 }
        else none,
      pairs := fun _ => none, property_list := [0],
      lcache := fun m => if m = 5 then some (some 0) else none,
      bcHeap := fun _ => none, events := [] }
    0
    { ecma_alloc_property with
      flags := { emptyPropFlags with nameddata := true }, name_p := 5 }
    1 rfl (Or.inl rfl) (by simp) (by decide)
    (by intro b hb hne; simp at hb; exact absurd hb hne)
    (by intro h2; exact Bool.noConfusion h2)
    (Or.inr rfl)

/-- Updating then reading the same bytecode address. -/
@[simp] theorem bcUpdate_same (h : BcHeap) (a : Nat) (v : Option ecma_compiled_code_t) :
    bcUpdate h a v a = v := by
  simp [bcUpdate]

/-- Updating then reading a different bytecode address. -/
theorem bcUpdate_ne (h : BcHeap) (a x : Nat) (v : Option ecma_compiled_code_t)
    (hx : x ≠ a) : bcUpdate h a v x = h x := by
  simp [bcUpdate, hx]

/-- The literal-table loop of ecma_bytecode_deref: with at least one unit of
fuel left and every non-self entry alive with strictly more references than
its multiplicity in the region, the loop succeeds, emits exactly one
dereference event per non-self entry in order, and leaves the self address
untouched. -/
theorem derefRegion_spec (m : Nat) (hm : 1 ≤ m) (self : Nat) :
    ∀ (l : List Nat) (g : BcHeap),
      (∀ c ∈ l, c ≠ self → ∃ cc, g c = some cc ∧ l.count c < cc.refs) →
      ∃ g2, derefRegion m self g l =
          some (g2, (l.filter (fun c => c ≠ self)).map Event.bcDeref) ∧
        g2 self = g self := by
  intro l
  induction l with
  | nil => intro g _; exact ⟨g, by simp [derefRegion], rfl⟩
  | cons c cs ih =>
    intro g h
    by_cases hc : c = self
    · have hcond : ∀ d ∈ cs, d ≠ self → ∃ dd, g d = some dd ∧ cs.count d < dd.refs := by
        intro d hd hdne
        obtain ⟨dd, hdd, hcnt⟩ := h d (List.mem_cons_of_mem _ hd) hdne
        refine ⟨dd, hdd, ?_⟩
        have : cs.count d ≤ (c :: cs).count d := by
          by_cases hdc : d = c
          · subst hdc; simp [List.count_cons]
          · simp [List.count_cons, hdc]
        omega
      obtain ⟨g2, hg2, hs⟩ := ih g hcond
      refine ⟨g2, ?_, hs⟩
      have hfc : decide (c ≠ self) = false := by simp [hc]
      simp [derefRegion, hc, hg2, List.filter_cons, hfc]
    · obtain ⟨cc, hcc, hcnt⟩ := h c (List.mem_cons_self c cs) hc
      have hcpos : 1 ≤ (c :: cs).count c := by
        have := List.count_pos_iff.mpr (List.mem_cons_self c cs)
        omega
      have hrefs2 : 2 ≤ cc.refs := by omega
      obtain ⟨k, rfl⟩ : ∃ k, m = k + 1 := ⟨m - 1, by omega⟩
      have hderef : ecma_bytecode_deref (k + 1) g c =
          some (bcUpdate g c (some { cc with refs := cc.refs - 1 }), [Event.bcDeref c]) := by
        simp only [ecma_bytecode_deref, hcc]
        rw [if_neg (by omega)]
        rw [if_pos (by omega)]
      have hcond : ∀ d ∈ cs, d ≠ self →
          ∃ dd, bcUpdate g c (some { cc with refs := cc.refs - 1 }) d = some dd ∧
            cs.count d < dd.refs := by
        intro d hd hdne
        by_cases hdc : d = c
        · subst hdc
          refine ⟨{ cc with refs := cc.refs - 1 }, by simp, ?_⟩
          have : (d :: cs).count d = cs.count d + 1 := by simp [List.count_cons]
          simp only []
          omega
        · obtain ⟨dd, hdd, hcnt2⟩ := h d (List.mem_cons_of_mem _ hd) hdne
          refine ⟨dd, ?_, ?_⟩
          · rw [bcUpdate_ne _ _ _ _ hdc]
            exact hdd
          · have : cs.count d ≤ (c :: cs).count d := by
              simp [List.count_cons, hdc]
            omega
      obtain ⟨g2, hg2, hs2⟩ := ih (bcUpdate g c (some { cc with refs := cc.refs - 1 })) hcond
      refine ⟨g2, ?_, ?_⟩
      · have hfc : decide (c ≠ self) = true := by simp [hc]
        simp [derefRegion, hc, hderef, hg2, List.filter_cons, hfc]
      · rw [hs2]
        exact bcUpdate_ne _ _ _ _ (fun hsc => hc hsc.symm)

/-- No dereference event of the region touches the self address, and the
mapped events are neither zero nor free events. -/
theorem region_events_disjoint (l : List Nat) (a sz : Nat) :
    ((l.filter (fun c => c ≠ a)).map Event.bcDeref).count (Event.bcDeref a) = 0 ∧
    ((l.filter (fun c => c ≠ a)).map Event.bcDeref).count (Event.bcZero a) = 0 ∧
    ((l.filter (fun c => c ≠ a)).map Event.bcDeref).count (Event.bcFree a sz) = 0 := by
  refine ⟨?_, ?_, ?_⟩
  · rw [List.count_eq_zero]
    intro hmem
    simp only [List.mem_map, List.mem_filter, decide_eq_true_eq] at hmem
    obtain ⟨c, ⟨_, hcne⟩, heq⟩ := hmem
    injection heq with h2
    exact hcne h2
  · rw [List.count_eq_zero]
    intro hmem
    simp only [List.mem_map] at hmem
    obtain ⟨c, _, heq⟩ := hmem
    exact Event.noConfusion heq
  · rw [List.count_eq_zero]
    intro hmem
    simp only [List.mem_map] at hmem
    obtain ⟨c, _, heq⟩ := hmem
    exact Event.noConfusion heq

/-- Claim C1: on a compiled-function bytecode descriptor with reference
count one whose literal-table bytecode-reference region contains an entry
pointing back to itself, ecma_bytecode_deref terminates for every
sufficient fuel, reaches count zero exactly once, recursively dereferences
exactly the non-self entries of the region (each is alive with more
references than its multiplicity, so no nested release occurs), never
re-enters itself, and frees the block exactly once with its recorded size. -/
theorem claim_C1 (h : BcHeap) (a : Nat) (bc : ecma_compiled_code_t) (fuel : Nat)
    (ha : h a = some bc)
    (hrefs : bc.refs = 1)
    (hfn : bc.isFunction = true)
    (_hself : a ∈ bc.bytecodeRegion)
    (hchildren : ∀ c ∈ bc.bytecodeRegion, c ≠ a →
      ∃ cc, h c = some cc ∧ bc.bytecodeRegion.count c < cc.refs)
    (hfuel : 2 ≤ fuel) :
    ∃ h2, ecma_bytecode_deref fuel h a =
        some (h2, Event.bcDeref a :: Event.bcZero a ::
          ((bc.bytecodeRegion.filter (fun c => c ≠ a)).map Event.bcDeref ++
            [Event.bcFree a (bc.size <<< MEM_ALIGNMENT_LOG)])) ∧
      h2 a = none ∧
      (Event.bcDeref a :: Event.bcZero a ::
        ((bc.bytecodeRegion.filter (fun c => c ≠ a)).map Event.bcDeref ++
          [Event.bcFree a (bc.size <<< MEM_ALIGNMENT_LOG)])).count (Event.bcDeref a) = 1 ∧
      (Event.bcDeref a :: Event.bcZero a ::
        ((bc.bytecodeRegion.filter (fun c => c ≠ a)).map Event.bcDeref ++
          [Event.bcFree a (bc.size <<< MEM_ALIGNMENT_LOG)])).count (Event.bcZero a) = 1 ∧
      (Event.bcDeref a :: Event.bcZero a ::
        ((bc.bytecodeRegion.filter (fun c => c ≠ a)).map Event.bcDeref ++
          [Event.bcFree a (bc.size <<< MEM_ALIGNMENT_LOG)])).count
        (Event.bcFree a (bc.size <<< MEM_ALIGNMENT_LOG)) = 1 := by
  obtain ⟨f1, rfl⟩ : ∃ f1, fuel = f1 + 1 := ⟨fuel - 1, by omega⟩
  have hf1 : 1 ≤ f1 := by omega
  have hcond : ∀ c ∈ bc.bytecodeRegion, c ≠ a →
      ∃ cc, bcUpdate h a (some { bc with refs := bc.refs - 1 }) c = some cc ∧
        bc.bytecodeRegion.count c < cc.refs := by
    intro c hc hcne
    obtain ⟨cc, hcc, hcnt⟩ := hchildren c hc hcne
    refine ⟨cc, ?_, hcnt⟩
    rw [bcUpdate_ne _ _ _ _ hcne]
    exact hcc
  obtain ⟨g2, hg2, hgs⟩ := derefRegion_spec f1 hf1 a bc.bytecodeRegion
    (bcUpdate h a (some { bc with refs := bc.refs - 1 })) hcond
  obtain ⟨hd0, hz0, hf0⟩ := region_events_disjoint bc.bytecodeRegion a
    (bc.size <<< MEM_ALIGNMENT_LOG)
  rw [hfn] at hg2
  refine ⟨bcUpdate g2 a none, ?_, ?_, ?_, ?_, ?_⟩
  · simp only [ecma_bytecode_deref, ha]
    rw [if_neg (by omega)]
    rw [if_neg (by simp [hrefs])]
    simp only [hfn, if_true, hg2]
  · exact bcUpdate_same g2 a none
  · rw [List.count_cons_self,
      List.count_cons_of_ne (by simp : Event.bcDeref a ≠ Event.bcZero a),
      List.count_append, hd0,
      List.count_cons_of_ne
        (by simp : Event.bcDeref a ≠ Event.bcFree a (bc.size <<< MEM_ALIGNMENT_LOG)),
      List.count_nil]
  · rw [List.count_cons_of_ne (by simp : Event.bcZero a ≠ Event.bcDeref a),
      List.count_cons_self, List.count_append, hz0,
      List.count_cons_of_ne
        (by simp : Event.bcZero a ≠ Event.bcFree a (bc.size <<< MEM_ALIGNMENT_LOG)),
      List.count_nil]
  · rw [List.count_cons_of_ne
        (by simp : Event.bcFree a (bc.size <<< MEM_ALIGNMENT_LOG) ≠ Event.bcDeref a),
      List.count_cons_of_ne
        (by simp : Event.bcFree a (bc.size <<< MEM_ALIGNMENT_LOG) ≠ Event.bcZero a),
      List.count_append, hf0, List.count_cons_self, List.count_nil]

/-- Witness for claim C1: a compiled function at address 0 with reference
count one whose region is [0, 1, 0] (two self-references and one live
sibling at address 1 with five references). -/
theorem claim_C1_witness :
    (ecma_compiled_code_t.refs
      { refs := 1, isFunction := true, bytecodeRegion := [0, 1, 0],
        pattern_cp := 0, size := 2 } = 1) ∧
    ((0 : Nat) ∈ ecma_compiled_code_t.bytecodeRegion
      { refs := 1, isFunction := true, bytecodeRegion := [0, 1, 0],
        pattern_cp := 0, size := 2 }) ∧
    ∃ h2, ecma_bytecode_deref 2
        (fun x => if x = 0 then
          some { refs := 1, isFunction := true, bytecodeRegion := [0, 1, 0],
                 pattern_cp := 0, size := 2 }
          else if x = 1 then
          some { refs := 5, isFunction := true, bytecodeRegion := [],
                 pattern_cp := 0, size := 1 }
          else none) 0 =
        some (h2, Event.bcDeref 0 :: Event.bcZero 0 ::
          ((([0, 1, 0] : List Nat).filter (fun c => c ≠ 0)).map Event.bcDeref ++
            [Event.bcFree 0 (2 <<< MEM_ALIGNMENT_LOG)])) ∧
      h2 0 = none ∧
      (Event.bcDeref 0 :: Event.bcZero 0 ::
        ((([0, 1, 0] : List Nat).filter (fun c => c ≠ 0)).map Event.bcDeref ++
          [Event.bcFree 0 (2 <<< MEM_ALIGNMENT_LOG)])).count (Event.bcDeref 0) = 1 ∧
      (Event.bcDeref 0 :: Event.bcZero 0 ::
        ((([0, 1, 0] : List Nat).filter (fun c => c ≠ 0)).map Event.bcDeref ++
          [Event.bcFree 0 (2 <<< MEM_ALIGNMENT_LOG)])).count (Event.bcZero 0) = 1 ∧
      (Event.bcDeref 0 :: Event.bcZero 0 ::
        ((([0, 1, 0] : List Nat).filter (fun c => c ≠ 0)).map Event.bcDeref ++
          [Event.bcFree 0 (2 <<< MEM_ALIGNMENT_LOG)])).count
        (Event.bcFree 0 (2 <<< MEM_ALIGNMENT_LOG)) = 1 := by
  refine ⟨rfl, by decide, ?_⟩
  exact claim_C1
    (fun x => if x = 0 then
      some { refs := 1, isFunction := true, bytecodeRegion := [0, 1, 0],
             pattern_cp := 0, size := 2 }
      else if x = 1 then
      some { refs := 5, isFunction := true, bytecodeRegion := [],
             pattern_cp := 0, size := 1 }
      else none)
    0
    { refs := 1, isFunction := true, bytecodeRegion := [0, 1, 0],
      pattern_cp := 0, size := 2 }
    2 rfl rfl rfl (by decide)
    (by
      intro c hc hcne
      simp at hc
      rcases hc with rfl | rfl | rfl
      · exact absurd rfl hcne
      · exact ⟨{ refs := 5, isFunction := true, bytecodeRegion := [],
                 pattern_cp := 0, size := 1 }, rfl, by decide⟩
      · exact absurd rfl hcne)
    (by decide)

/-- Counterexample for claim C7 as stated: for the code-bytecode kind a null
payload is NOT a no-op release; it is an asserted programming error
(ECMA_GET_NON_NULL_POINTER on the null sentinel), so releasing such an
internal property does not deallocate the record and leave the heap
untouched. -/
theorem claim_C7_counterexample :
    ecma_free_internal_property InternalPropertyId.codeBytecode 0 1 (fun _ => none)
      = none ∧
    ¬ (ecma_free_internal_property InternalPropertyId.codeBytecode 0 1 (fun _ => none)
      = some ((fun _ => none), [Event.deallocProperty])) := by
  constructor
  · rfl
  · intro hcontra
    simp [ecma_free_internal_property] at hcontra

/-- Claim C7 as amended: releasing an internal property of a bytecode-valued
kind with a non-null payload decrements the referenced descriptor via
ecma_bytecode_deref (then deallocates the record); a null payload is a
no-op only for the regexp-bytecode kind, while for the code-bytecode kind
it is an asserted programming error. -/
theorem claim_C7 (h : BcHeap) (fuel : Nat) (v : Nat) :
    (ecma_free_internal_property InternalPropertyId.regexpBytecode 0 fuel h =
      some (h, [Event.deallocProperty])) ∧
    (ecma_free_internal_property InternalPropertyId.codeBytecode 0 fuel h = none) ∧
    (v ≠ 0 →
      ecma_free_internal_property InternalPropertyId.codeBytecode v fuel h =
        match ecma_bytecode_deref fuel h v with
        | none => none
        | some r => some (r.1, r.2 ++ [Event.deallocProperty])) ∧
    (v ≠ 0 →
      ecma_free_internal_property InternalPropertyId.regexpBytecode v fuel h =
        match ecma_bytecode_deref fuel h v with
        | none => none
        | some r => some (r.1, r.2 ++ [Event.deallocProperty])) := by
  refine ⟨?_, ?_, ?_, ?_⟩
  · simp [ecma_free_internal_property]
  · simp [ecma_free_internal_property]
  · intro hv
    rcases hd : ecma_bytecode_deref fuel h v with _ | ⟨h2, evs⟩ <;>
      simp [ecma_free_internal_property, hv, hd]
  · intro hv
    rcases hd : ecma_bytecode_deref fuel h v with _ | ⟨h2, evs⟩ <;>
      simp [ecma_free_internal_property, hv, hd]

/-- Witness for the amended claim C7 at a non-null payload. -/
theorem claim_C7_witness :
    ((1 : Nat) ≠ 0) ∧
    ecma_free_internal_property InternalPropertyId.codeBytecode 1 1 (fun _ => none) =
      (match ecma_bytecode_deref 1 (fun _ => none) 1 with
       | none => none
       | some r => some (r.1, r.2 ++ [Event.deallocProperty])) ∧
    ecma_free_internal_property InternalPropertyId.regexpBytecode 1 1 (fun _ => none) =
      (match ecma_bytecode_deref 1 (fun _ => none) 1 with
       | none => none
       | some r => some (r.1, r.2 ++ [Event.deallocProperty])) :=
  ⟨by decide,
   (claim_C7 (fun _ => none) 1 1).2.2.1 (by decide),
   (claim_C7 (fun _ => none) 1 1).2.2.2 (by decide)⟩
